import Mathlib

/-!
Verification of the mesh-messager-core Chord node against its specification.

The TypeScript sources are shallowly embedded below.  Two revisions of the
node appear in the repository and are both modelled where claims cite them:
the revision with a successor list (`NodeState`, from the file that adds
`successorList` and the `dead` flag) and the plain revision in
`src/node.ts` (`NodeTs`).  JavaScript `bigint` identifiers are non-negative
and are modelled as `Nat`; JavaScript truthiness of an optional bigint
(`!this.predecessor`, `x || y`) is modelled explicitly, since `0n` is falsy.
Asynchronous RPCs are modelled by passing their outcomes as explicit
oracle arguments: `none`/`false` marks a failed (throwing) RPC, and
functions additionally return the number of RPCs they issued.
-/

namespace Mesh

/-- Ring identifier (`type Id = bigint`); ids are non-negative integers. -/
abbrev Id := Nat

/-- `Interval<T>` from `src/assembly/interval.ts`, instantiated at `Id`.
`includeStart` and `includeEnd` default to `false` as in the source. -/
structure Interval where
  start : Id
  «end» : Id
  includeStart : Bool := false
  includeEnd : Bool := false
deriving DecidableEq

/-- `withinInterval` from `src/assembly/interval.ts`: a purely linear
comparison chain, with no wrap-around (cyclic) case. -/
def withinInterval (value : Id) (i : Interval) : Bool :=
  (if i.includeStart then decide (value ≥ i.start) else decide (value > i.start))
    && (if i.includeEnd then decide (value ≤ i.«end») else decide (value < i.«end»))

/-- JavaScript truthiness of `Id | undefined`: `undefined` and `0n` are falsy. -/
def idFalsy : Option Id → Bool
  | none => true
  | some p => p == 0

/-- `FingerEntity` from the node sources. -/
structure FingerEntity where
  key : Id
  nodeId : Id
deriving DecidableEq

/-- Node state of the successor-list revision: `id`, `_successor`,
`_predecessor`, `successorList`, `fingers`, `storage`, `dead`.
Storage values (`StoragePiece = object`) are opaque payloads, modelled
as strings. -/
structure NodeState where
  id : Id
  successor : Id
  predecessor : Option Id
  successorList : List Id
  fingers : List FingerEntity
  storage : List (String × String)
  dead : Bool
deriving DecidableEq

/-- `KEY_BITS = 8` in the successor-list revision. -/
def KEY_BITS : Nat := 8

/-- `MAX_SUCCESSORS_LIST_LENGTH = Math.ceil(Math.log(KEY_BITS))`: the
natural logarithm of 8 is ≈ 2.079, so the constant evaluates to 3. -/
def MAX_SUCCESSORS_LIST_LENGTH : Nat := 3

/-- `generateFingerId`: `(this.id + 2n ** BigInt(i)) % 2n ** BigInt(KEY_BITS)`. -/
def generateFingerId (id : Id) (fingerIndex : Nat) : Id :=
  (id + 2 ^ fingerIndex) % 2 ^ KEY_BITS

/-- `createFingerTable`: `KEY_BITS` entries, each initially pointing at self. -/
def createFingerTable (id : Id) : List FingerEntity :=
  (List.range KEY_BITS).map fun i => { key := generateFingerId id i, nodeId := id }

/-- The constructor: `_successor` is written directly (not via the setter),
`successorList` starts empty, and the `dead` field initializer is `false`
regardless of the other fields. -/
def mkNode (id : Id) (succ : Id) : NodeState :=
  { id := id, successor := succ, predecessor := none, successorList := [],
    fingers := createFingerTable id, storage := [], dead := false }

/-- The strict order induced by the comparator passed to `Array.sort` in
`updateSuccesorsList`: ids beyond `self` (ring-forward) come first, each
group ascending.  `succBefore self a b` holds iff the comparator returns
`-1` on `(a, b)`. -/
def succBefore (self a b : Id) : Bool :=
  if (decide (a > self)) = (decide (b > self)) then decide (a < b)
  else decide (a > self)

/-- Insertion into a list sorted by `succBefore self`. -/
def insertSorted (self x : Id) : List Id → List Id
  | [] => [x]
  | y :: ys => if succBefore self x y then x :: y :: ys else y :: insertSorted self x ys

/-- `Array.sort` with the comparator of `updateSuccesorsList`: on a
duplicate-free list the comparator is a strict total order, so the sorted
result is uniquely determined and modelled by insertion sort. -/
def sortSuccessors (self : Id) (l : List Id) : List Id :=
  l.foldr (insertSorted self) []

/-- `Array.from(new Set(...))`: deduplicate keeping first occurrences. -/
def jsSetDedup (l : List Id) : List Id :=
  l.foldl (fun acc x => if acc.contains x then acc else acc ++ [x]) []

/-- `updateSuccesorsList(...newList)`: concatenate with the current list,
deduplicate, sort ring-forward from `this.id`, truncate to the cap.
No filtering of `this.id` is performed. -/
def updateSuccesorsList (n : NodeState) (newList : List Id) : NodeState :=
  let merged := sortSuccessors n.id (jsSetDedup (newList ++ n.successorList))
  { n with successorList := merged.take MAX_SUCCESSORS_LIST_LENGTH }

/-- `getBestSuccessor`: `this.successorList[0] || this.id` — the head of the
list, except that an absent head (empty list) or a falsy head (`0n`) yields
`this.id`. -/
def getBestSuccessor (n : NodeState) : Id :=
  match n.successorList with
  | [] => n.id
  | x :: _ => if x == 0 then n.id else x

/-- The `successor` setter: splice the old successor out of
`successorList`, write `_successor`, recompute `dead`, and if the new
successor is not in the list, merge it in via `updateSuccesorsList`. -/
def setSuccessor (n : NodeState) (succ : Id) : NodeState :=
  let sl := n.successorList.erase n.successor
  let n1 : NodeState :=
    { n with successor := succ, successorList := sl,
             dead := succ == n.id && idFalsy n.predecessor }
  if sl.contains succ then n1 else updateSuccesorsList n1 [succ]

/-- The `predecessor` setter: write `_predecessor` and recompute `dead`. -/
def setPredecessor (n : NodeState) (p : Option Id) : NodeState :=
  { n with predecessor := p, dead := n.successor == n.id && idFalsy p }

/-- `notify(id)`: adopt the candidate when `!this.predecessor` (undefined or
`0n`) or the candidate lies in the open interval `(predecessor, this.id)`
as computed by `withinInterval`. -/
def notify (n : NodeState) (x : Id) : NodeState :=
  match n.predecessor with
  | none => setPredecessor n (some x)
  | some p =>
      if p == 0 || withinInterval x { start := p, «end» := n.id } then
        setPredecessor n (some x)
      else n

/-- `getClosestPrecedingNode(key)`: `findLastIndex` over the fingers of the
predicate `withinInterval(nodeId, (this.id, key))`; the node id of the last
match, or `this.id` when there is none. -/
def getClosestPrecedingNode (n : NodeState) (key : Id) : Id :=
  match n.fingers.reverse.find?
      (fun f => withinInterval f.nodeId { start := n.id, «end» := key }) with
  | some f => f.nodeId
  | none => n.id

/-- `findSuccessorForKey(key)`: the interval test, the closest-preceding
finger, the forwarded RPC (`rpc pre key`, `none` = the RPC threw), and the
`this.id` fallback in the catch block.  The second component counts RPCs
issued.  The function is total: no error escapes. -/
def findSuccessorForKey (n : NodeState) (rpc : Id → Id → Option Id) (key : Id) :
    Id × Nat :=
  if withinInterval key { start := n.id, «end» := n.successor, includeEnd := true } then
    (n.successor, 0)
  else
    let preNodeId := getClosestPrecedingNode n key
    if preNodeId == n.id then (n.id, 0)
    else
      match rpc preNodeId key with
      | some r => (r, 1)
      | none => (n.id, 1)

/-- The catch block of `stabilize` in the successor-list revision: splice
the current successor out of `successorList`, then assign
`this.successor = this.getBestSuccessor()` (through the setter). -/
def stabilizeFail (n : NodeState) : NodeState :=
  let n1 : NodeState := { n with successorList := n.successorList.erase n.successor }
  setSuccessor n1 (getBestSuccessor n1)

/-- The adoption step of `stabilize`: `if (preId && withinInterval(preId,
(this.id, this.successor))) this.successor = preId` — `preId` must be
defined and nonzero (JS truthiness). -/
def stabAdopt (n : NodeState) (preId : Option Id) : NodeState :=
  match preId with
  | none => n
  | some p =>
      if p != 0 && withinInterval p { start := n.id, «end» := n.successor } then
        setSuccessor n p
      else n

/-- `stabilize()` of the successor-list revision.  Oracle arguments give the
outcomes of the three RPCs in order: `getPred` is the `GetPredecessor`
response (`none` = the RPC threw, `some none` = peer answered `undefined`),
`notifyOk` is whether `Notify` succeeded, `getList` is the
`GetSuccessorsList` response.  Returns the new state and the number of
RPCs issued. -/
def stabilize (n : NodeState) (getPred : Option (Option Id)) (notifyOk : Bool)
    (getList : Option (List Id)) : NodeState × Nat :=
  if n.successor == n.id then (n, 0)
  else
    match getPred with
    | none => (stabilizeFail n, 1)
    | some preId =>
        let n1 := stabAdopt n preId
        if notifyOk then
          match getList with
          | none => (stabilizeFail n1, 3)
          | some l => (updateSuccesorsList n1 l, 3)
        else (stabilizeFail n1, 2)

/-- One step of `fixFingersGenerator` in the successor-list revision: look
up `findSuccessorForKey(this.id + 2^counter)`, write the result into
`fingers[counter].nodeId`, and advance the counter modulo
`fingers.length - 1`. -/
def fixFingersTick (n : NodeState) (counter : Nat) (rpc : Id → Id → Option Id) :
    NodeState × Nat :=
  let newVal := (findSuccessorForKey n rpc (n.id + 2 ^ counter)).1
  let fingers' :=
    match n.fingers[counter]? with
    | some f => n.fingers.set counter { f with nodeId := newVal }
    | none => n.fingers
  ({ n with fingers := fingers' }, (counter + 1) % (n.fingers.length - 1))

/-- Iterate `fixFingersTick` from a given (state, counter) pair. -/
def fixFingersRun (rpc : Id → Id → Option Id) : Nat → NodeState × Nat → NodeState × Nat
  | 0, s => s
  | k + 1, s => fixFingersRun rpc k (fixFingersTick s.1 s.2 rpc)

/-- Node state of the plain `src/node.ts` revision (no successor list, no
`dead` field). -/
structure NodeTs where
  id : Id
  successor : Id
  predecessor : Option Id
  fingers : List FingerEntity
  storage : List (String × String)
deriving DecidableEq

/-- `stabilize()` of `src/node.ts`.  In the singleton branch
(`successor === id`), when a (truthy) predecessor exists the node requests
the predecessor's successor (`reqSucc`; `none` = the RPC threw) and either
adopts it or clears the predecessor.  Otherwise the usual
GetPredecessor/Notify sequence runs, with `this.successor = this.id` in the
catch block. -/
def stabilizeTs (m : NodeTs) (reqSucc : Option Id) (getPred : Option (Option Id))
    (notifyOk : Bool) : NodeTs × Nat :=
  if m.successor == m.id then
    match m.predecessor with
    | none => (m, 0)
    | some p =>
        if p == 0 then (m, 0)
        else
          match reqSucc with
          | some s => ({ m with successor := s }, 1)
          | none => ({ m with predecessor := none }, 1)
  else
    match getPred with
    | none => ({ m with successor := m.id }, 1)
    | some preId =>
        let m1 :=
          match preId with
          | some p =>
              if p != 0 && withinInterval p { start := m.id, «end» := m.successor } then
                { m with successor := p }
              else m
          | none => m
        if notifyOk then (m1, 2) else ({ m1 with successor := m1.id }, 2)

/-- Lifecycle bookkeeping shared by both revisions: the `lifecycleActive`
flag and the three pending timers. -/
structure LifecycleState where
  lifecycleActive : Bool
  stabTimer : Bool
  fingTimer : Bool
  predTimer : Bool
deriving DecidableEq

/-- `startLifecycle()`: returns immediately when `lifecycleActive` is
already set; otherwise sets the flag and schedules the three tasks. -/
def startLifecycle (s : LifecycleState) : LifecycleState :=
  if s.lifecycleActive then s
  else { lifecycleActive := true, stabTimer := true, fingTimer := true, predTimer := true }

/-- `stopLifecycle()`: clears the three timeouts; `lifecycleActive` is
never reset. -/
def stopLifecycle (s : LifecycleState) : LifecycleState :=
  { s with stabTimer := false, fingTimer := false, predTimer := false }

/-- External lifecycle calls. -/
inductive LifecycleOp where
  | start
  | stop
deriving DecidableEq

def applyLifecycleOp (s : LifecycleState) : LifecycleOp → LifecycleState
  | .start => startLifecycle s
  | .stop => stopLifecycle s

def applyLifecycleOps (s : LifecycleState) (ops : List LifecycleOp) : LifecycleState :=
  ops.foldl applyLifecycleOp s

/-! ## Theorems -/

/-- Claim C1: the spec requires cyclic interval membership — in the wrap
case `start > end`, `within(x, start, end, false, false)` should hold iff
`x > start ∨ x < end`, and for `start = end` the open interval should
contain every `x ≠ start`.  The code's `withinInterval` is purely linear:
on the wrap input `x = 5, start = 3, end = 1` it returns `false` although
`5 > 3`, and on the degenerate inputs `x = 5` and `x = 1` with
`start = end = 2` it returns `false` although `x ≠ 2`. -/
theorem withinInterval_wrap_eval :
    withinInterval 5 { start := 3, «end» := 1 } = false
    ∧ withinInterval 5 { start := 2, «end» := 2 } = false
    ∧ withinInterval 1 { start := 2, «end» := 2 } = false := by
  decide

/-- Claim C9: the ring-complement law demands that for `a = 1`, `b = 3`,
`x = 5` exactly one of `within(x, a, b, false, true)` and
`within(x, b, a, false, true)` holds; the linear `withinInterval` returns
`false` for both, so neither holds. -/
theorem withinInterval_complement_eval :
    withinInterval 5 { start := 1, «end» := 3, includeEnd := true } = false
    ∧ withinInterval 5 { start := 3, «end» := 1, includeEnd := true } = false := by
  decide

/-- Claim C8: `notify` is idempotent — applying `notify x` twice leaves the
node in exactly the state reached after applying it once, for every node
state (including the `dead` recomputation done by the predecessor setter)
and every candidate `x`. -/
theorem notify_idempotent (n : NodeState) (x : Id) :
    notify (notify n x) x = notify n x := by
  have hset : ∀ m : NodeState, notify (setPredecessor m (some x)) x
      = setPredecessor m (some x) := by
    intro m
    by_cases hx : x = 0
    · subst hx
      cases m
      simp [notify, setPredecessor, idFalsy]
    · have hfalse : withinInterval x { start := x, «end» := m.id } = false := by
        simp [withinInterval]
      simp [notify, setPredecessor, hx, hfalse]
  cases hpred : n.predecessor with
  | none =>
    have h1 : notify n x = setPredecessor n (some x) := by simp [notify, hpred]
    rw [h1]; exact hset n
  | some p =>
    cases hc : (p == 0 || withinInterval x { start := p, «end» := n.id }) with
    | true =>
      have h1 : notify n x = setPredecessor n (some x) := by simp [notify, hpred, hc]
      rw [h1]; exact hset n
    | false =>
      have h1 : notify n x = n := by
        simp [notify, hpred, hc]
      rw [h1]
      simp [notify, hpred, hc]

/-- Claim C2: `findSuccessorForKey` follows the three-step algorithm.  If
`key` lies in `(self.id, self.successor]` as computed by the program's
`withinInterval`, it returns the successor without issuing any RPC;
otherwise, if the closest preceding finger is `self.id` it returns
`self.id` with no RPC; otherwise it forwards one `FindSuccessorForId` RPC
to that finger, falling back to `self.id` when the RPC fails — the function
is total, so `findSuccessorForKey` never throws. -/
theorem findSuccessorForKey_steps (n : NodeState) (rpc : Id → Id → Option Id)
    (key : Id) :
    (withinInterval key { start := n.id, «end» := n.successor, includeEnd := true }
        = true →
      findSuccessorForKey n rpc key = (n.successor, 0))
    ∧ (withinInterval key { start := n.id, «end» := n.successor, includeEnd := true }
        = false →
      getClosestPrecedingNode n key = n.id →
      findSuccessorForKey n rpc key = (n.id, 0))
    ∧ (withinInterval key { start := n.id, «end» := n.successor, includeEnd := true }
        = false →
      getClosestPrecedingNode n key ≠ n.id →
      findSuccessorForKey n rpc key
        = ((rpc (getClosestPrecedingNode n key) key).getD n.id, 1)) := by
  refine ⟨fun h => by simp [findSuccessorForKey, h], fun h1 h2 => ?_, fun h1 h2 => ?_⟩
  · simp [findSuccessorForKey, h1, h2]
  · simp only [findSuccessorForKey, h1, Bool.false_eq_true, if_false]
    have hbeq : (getClosestPrecedingNode n key == n.id) = false := by
      simp [h2]
    simp only [hbeq, Bool.false_eq_true, if_false]
    cases rpc (getClosestPrecedingNode n key) key <;> simp

/-- Witness for C2: all three branches at concrete inputs.  A node with
id 1 and successor 5 answers key 3 with its successor and no RPC; with an
all-self finger it answers key 7 with itself and no RPC; with a finger at
node 3 it forwards key 7 and returns the RPC's answer 9 after one RPC. -/
theorem findSuccessorForKey_steps_witness :
    findSuccessorForKey
        { id := 1, successor := 5, predecessor := none, successorList := [],
          fingers := [{ key := 2, nodeId := 1 }], storage := [], dead := false }
        (fun _ _ => none) 3
      = (5, 0)
    ∧ findSuccessorForKey
        { id := 1, successor := 5, predecessor := none, successorList := [],
          fingers := [{ key := 2, nodeId := 1 }], storage := [], dead := false }
        (fun _ _ => none) 7
      = (1, 0)
    ∧ findSuccessorForKey
        { id := 1, successor := 5, predecessor := none, successorList := [],
          fingers := [{ key := 2, nodeId := 3 }], storage := [], dead := false }
        (fun _ _ => some 9) 7
      = (((fun (_ _ : Id) => some 9) (getClosestPrecedingNode
            { id := 1, successor := 5, predecessor := none, successorList := [],
              fingers := [{ key := 2, nodeId := 3 }], storage := [], dead := false }
            7) 7).getD 1, 1) :=
  ⟨(findSuccessorForKey_steps _ (fun _ _ => none) 3).1 (by decide),
   (findSuccessorForKey_steps _ (fun _ _ => none) 7).2.1 (by decide) (by decide),
   (findSuccessorForKey_steps _ (fun _ _ => some 9) 7).2.2 (by decide) (by decide)⟩

/-- Claim C4 (amended): a stabilize tick with `successor == self.id` is a
no-op issuing no RPC in the successor-list revision unconditionally, and in
the `src/node.ts` revision only when additionally `predecessor` is `None`;
in `src/node.ts` a singleton node with a predecessor does issue an RPC (see
the counterexample). -/
theorem stabilize_singleton_noop (n : NodeState) (m : NodeTs)
    (gp : Option (Option Id)) (ok : Bool) (gl : Option (List Id)) (rs : Option Id)
    (hn : n.successor = n.id) (hm : m.successor = m.id) (hp : m.predecessor = none) :
    stabilize n gp ok gl = (n, 0) ∧ stabilizeTs m rs gp ok = (m, 0) := by
  constructor
  · simp [stabilize, hn]
  · simp [stabilizeTs, hm, hp]

/-- Witness for C4 (amended): concrete singleton states of both revisions. -/
theorem stabilize_singleton_noop_witness :
    stabilize (mkNode 4 4) none true none = (mkNode 4 4, 0)
    ∧ stabilizeTs
        { id := 2, successor := 2, predecessor := none, fingers := [], storage := [] }
        none none true
      = ({ id := 2, successor := 2, predecessor := none, fingers := [], storage := [] },
          0) :=
  stabilize_singleton_noop (mkNode 4 4)
    { id := 2, successor := 2, predecessor := none, fingers := [], storage := [] }
    none true none none rfl rfl rfl

/-- Counterexample to C4 as stated: in `src/node.ts`, a node with
`successor == id` but a live predecessor (id 1, successor 1,
predecessor 3) is not a no-op — the tick issues one RPC
(`FindSuccessorForId` to the predecessor) and adopts its answer 5 as the
new successor. -/
theorem stabilizeTs_singleton_counterexample :
    stabilizeTs
        { id := 1, successor := 1, predecessor := some 3, fingers := [], storage := [] }
        (some 5) none true
      = ({ id := 1, successor := 5, predecessor := some 3, fingers := [], storage := [] },
          1) := by
  decide

/-- Claim C10: once `startLifecycle` has run, `lifecycleActive` stays true
under every further sequence of start/stop calls (`stopLifecycle` clears
the three timers but never resets the flag), and calling `startLifecycle`
again after a stop returns without scheduling anything — the stopped state
is unchanged, so a stopped node's lifecycle can never be restarted. -/
theorem lifecycle_never_restarts (s0 : LifecycleState) (ops : List LifecycleOp) :
    (startLifecycle s0).lifecycleActive = true
    ∧ (applyLifecycleOps (startLifecycle s0) ops).lifecycleActive = true
    ∧ (∀ s : LifecycleState, s.lifecycleActive = true →
        startLifecycle (stopLifecycle s) = stopLifecycle s) := by
  have hstay : ∀ s : LifecycleState, s.lifecycleActive = true →
      ∀ op : LifecycleOp, (applyLifecycleOp s op).lifecycleActive = true := by
    intro s hs op
    cases op with
    | start => simp [applyLifecycleOp, startLifecycle, hs]
    | stop => simpa [applyLifecycleOp, stopLifecycle] using hs
  have hstart : (startLifecycle s0).lifecycleActive = true := by
    by_cases h : s0.lifecycleActive = true
    · simp [startLifecycle, h]
    · simp [startLifecycle] at h ⊢
      simp [h]
  refine ⟨hstart, ?_, ?_⟩
  · have : ∀ (l : List LifecycleOp) (s : LifecycleState), s.lifecycleActive = true →
        (applyLifecycleOps s l).lifecycleActive = true := by
      intro l
      induction l with
      | nil => intro s hs; simpa [applyLifecycleOps] using hs
      | cons op rest ih =>
          intro s hs
          have := hstay s hs op
          simpa [applyLifecycleOps] using ih _ this
    exact this ops _ hstart
  · intro s hs
    have : (stopLifecycle s).lifecycleActive = true := by
      simpa [stopLifecycle] using hs
    simp [startLifecycle, this]

/-- Witness for C10: starting fresh, then stopping, then starting again
leaves `lifecycleActive` true. -/
theorem lifecycle_never_restarts_witness :
    (applyLifecycleOps
        (startLifecycle
          { lifecycleActive := false, stabTimer := false, fingTimer := false,
            predTimer := false })
        [LifecycleOp.stop, LifecycleOp.start]).lifecycleActive = true
    ∧ startLifecycle (stopLifecycle
        { lifecycleActive := true, stabTimer := true, fingTimer := true,
          predTimer := true })
      = stopLifecycle
        { lifecycleActive := true, stabTimer := true, fingTimer := true,
          predTimer := true } :=
  ⟨(lifecycle_never_restarts
      { lifecycleActive := false, stabTimer := false, fingTimer := false,
        predTimer := false }
      [LifecycleOp.stop, LifecycleOp.start]).2.1,
   (lifecycle_never_restarts
      { lifecycleActive := false, stabTimer := false, fingTimer := false,
        predTimer := false } []).2.2 _ (by decide)⟩

/-- The successor setter changes only `successor`, `successorList` and
`dead`: `id`, `predecessor`, `fingers` and `storage` pass through, the new
successor is stored, and `dead` is recomputed from the new successor and
the current predecessor. -/
theorem setSuccessor_frame (n : NodeState) (s : Id) :
    (setSuccessor n s).id = n.id
    ∧ (setSuccessor n s).predecessor = n.predecessor
    ∧ (setSuccessor n s).fingers = n.fingers
    ∧ (setSuccessor n s).storage = n.storage
    ∧ (setSuccessor n s).successor = s
    ∧ (setSuccessor n s).dead = (s == n.id && idFalsy n.predecessor) := by
  by_cases h : s ∈ n.successorList.erase n.successor <;>
    simp [setSuccessor, updateSuccesorsList, h]

/-- Claim C7 (amended): every state produced by the successor setter or the
predecessor setter satisfies `dead = (successor == id && !predecessor)`
(with JS truthiness, so a predecessor of `0` also counts as absent), but
the constructor initializes `dead` to `false` unconditionally, so the
equality does not hold immediately after construction. -/
theorem dead_flag_setters :
    (∀ (n : NodeState) (s : Id),
      (setSuccessor n s).dead
        = ((setSuccessor n s).successor == (setSuccessor n s).id
            && idFalsy (setSuccessor n s).predecessor))
    ∧ (∀ (n : NodeState) (p : Option Id),
      (setPredecessor n p).dead
        = ((setPredecessor n p).successor == (setPredecessor n p).id
            && idFalsy (setPredecessor n p).predecessor))
    ∧ (∀ (i s : Id), (mkNode i s).dead = false) := by
  refine ⟨fun n s => ?_, fun n p => by simp [setPredecessor], fun i s => rfl⟩
  obtain ⟨h1, h2, _, _, h5, h6⟩ := setSuccessor_frame n s
  rw [h6, h1, h2, h5]

/-- Counterexample to C7 as stated: the node constructed as `mkNode 5 5` is
a fresh singleton (`successor == id` and `predecessor == None`), so the
derived predicate is true, yet its `dead` flag is `false` — the invariant
fails in the state immediately after construction. -/
theorem dead_flag_constructor_counterexample :
    (mkNode 5 5).successor = (mkNode 5 5).id
    ∧ (mkNode 5 5).predecessor = none
    ∧ (mkNode 5 5).dead = false := by
  decide

/-- Claim C3 (amended): when any of the three RPCs of a stabilize round
fails, the node splices the current successor out of `successorList` and
assigns `successor = getBestSuccessor()` through the successor setter,
applied to the state current at the failure (after a possible successor
adoption).  `id`, `predecessor`, `fingers` and `storage` are unchanged by
the failure branch, and `dead` is recomputed; `successorList` may gain the
newly assigned successor (in particular `self.id` when the list emptied),
beyond the removal the claim describes. -/
theorem stabilize_failure_branch (n : NodeState) (hne : n.successor ≠ n.id)
    (pre : Option Id) (l : List Id) :
    stabilize n none true (some l) = (stabilizeFail n, 1)
    ∧ stabilize n (some pre) false (some l) = (stabilizeFail (stabAdopt n pre), 2)
    ∧ stabilize n (some pre) true none = (stabilizeFail (stabAdopt n pre), 3)
    ∧ (stabilizeFail n).id = n.id
    ∧ (stabilizeFail n).predecessor = n.predecessor
    ∧ (stabilizeFail n).fingers = n.fingers
    ∧ (stabilizeFail n).storage = n.storage
    ∧ (stabilizeFail n).successor
        = getBestSuccessor { n with successorList := n.successorList.erase n.successor }
    ∧ (stabilizeFail n).dead
        = (getBestSuccessor { n with successorList := n.successorList.erase n.successor }
            == n.id && idFalsy n.predecessor) := by
  have hbeq : (n.successor == n.id) = false := by simp [hne]
  have hf := setSuccessor_frame
    { n with successorList := n.successorList.erase n.successor }
    (getBestSuccessor { n with successorList := n.successorList.erase n.successor })
  exact ⟨by simp [stabilize, hbeq], by simp [stabilize, hbeq], by simp [stabilize, hbeq],
    by simpa [stabilizeFail] using hf.1,
    by simpa [stabilizeFail] using hf.2.1,
    by simpa [stabilizeFail] using hf.2.2.1,
    by simpa [stabilizeFail] using hf.2.2.2.1,
    by simpa [stabilizeFail] using hf.2.2.2.2.1,
    by simpa [stabilizeFail] using hf.2.2.2.2.2⟩

/-- Witness for C3 (amended): node id 1, successor 5, successor list `[5]`;
a failing `GetPredecessor` RPC takes the failure branch. -/
theorem stabilize_failure_branch_witness :
    stabilize
        { id := 1, successor := 5, predecessor := none, successorList := [5],
          fingers := [], storage := [], dead := false }
        none true (some [7])
      = (stabilizeFail
          { id := 1, successor := 5, predecessor := none, successorList := [5],
            fingers := [], storage := [], dead := false }, 1) :=
  (stabilize_failure_branch
    { id := 1, successor := 5, predecessor := none, successorList := [5],
      fingers := [], storage := [], dead := false }
    (by decide) (some 2) [7]).1

/-- Counterexample to C3 as stated: node id 1, successor 5, successor list
`[5]`, predecessor `None`, `dead = false`.  A failing RPC removes 5 from
the list — but the subsequent setter assignment then merges the node's own
id back in, leaving `successorList = [1]` instead of `[]`, and flips `dead`
to `true`; so fields beyond the claim's "remove + set successor" are
modified by the failure branch. -/
theorem stabilize_failure_branch_counterexample :
    ((stabilize
        { id := 1, successor := 5, predecessor := none, successorList := [5],
          fingers := [], storage := [], dead := false }
        none true (some [7])).1.successorList = [1])
    ∧ ((stabilize
        { id := 1, successor := 5, predecessor := none, successorList := [5],
          fingers := [], storage := [], dead := false }
        none true (some [7])).1.dead = true) := by
  decide

/-- Membership is preserved by sorted insertion. -/
theorem mem_insertSorted (self x a : Id) (l : List Id) :
    a ∈ insertSorted self x l ↔ a = x ∨ a ∈ l := by
  induction l with
  | nil => simp [insertSorted]
  | cons y ys ih =>
    simp only [insertSorted]
    split
    · simp [List.mem_cons]
    · simp only [List.mem_cons, ih]
      tauto

/-- Sorted insertion grows the length by one. -/
theorem length_insertSorted (self x : Id) (l : List Id) :
    (insertSorted self x l).length = l.length + 1 := by
  induction l with
  | nil => simp [insertSorted]
  | cons y ys ih =>
    simp only [insertSorted]
    split <;> simp [ih]

/-- Membership is preserved by the successor-list sort. -/
theorem mem_sortSuccessors (self a : Id) (l : List Id) :
    a ∈ sortSuccessors self l ↔ a ∈ l := by
  induction l with
  | nil => simp [sortSuccessors]
  | cons y ys ih =>
    rw [show sortSuccessors self (y :: ys) = insertSorted self y (sortSuccessors self ys)
      from rfl]
    rw [mem_insertSorted]
    simp [ih]

/-- The successor-list sort preserves length. -/
theorem length_sortSuccessors (self : Id) (l : List Id) :
    (sortSuccessors self l).length = l.length := by
  induction l with
  | nil => simp [sortSuccessors]
  | cons y ys ih =>
    rw [show sortSuccessors self (y :: ys) = insertSorted self y (sortSuccessors self ys)
      from rfl]
    rw [length_insertSorted]
    simp [ih]

/-- Claim C6 (amended): `updateSuccesorsList` applies no self-filter — for
every node (here with id `i` and successor list `[s]`) a candidate list
containing the node's own id inserts `i` into `successorList`, even when
another node `s` is present.  Combined with stabilize fetching the remote
successor list unfiltered, `self.id` enters the successor list of nodes in
multi-member rings. -/
theorem updateSuccesorsList_no_self_filter (i s : Id) :
    i ∈ (updateSuccesorsList
        { id := i, successor := s, predecessor := none, successorList := [s],
          fingers := [], storage := [], dead := false } [i]).successorList := by
  simp only [updateSuccesorsList]
  have hsub : jsSetDedup ([i] ++ [s]) = if s = i then [i] else [i, s] := by
    by_cases h : s = i <;> simp [jsSetDedup, h]
  rw [hsub]
  by_cases h : s = i
  · simp [h, sortSuccessors, insertSorted, MAX_SUCCESSORS_LIST_LENGTH]
  · simp only [h, if_false]
    have hsort : sortSuccessors i [i, s]
        = if succBefore i i s then [i, s] else [s, i] := by
      rw [show sortSuccessors i [i, s] = insertSorted i i (insertSorted i s []) from rfl]
      simp [insertSorted]
    rw [hsort]
    split <;> simp [MAX_SUCCESSORS_LIST_LENGTH]

/-- Counterexample to C6 as stated: a node with id 10 whose successor list
is `[40]` (so another node, 40, exists).  Receiving its successor's list
`[10]` during stabilize — which happens in a two-node ring, where the
successor's successor is the node itself — merges the node's own id into
its successor list: the result is `[40, 10]`, which contains `self.id`. -/
theorem updateSuccesorsList_self_counterexample :
    (updateSuccesorsList
        { id := 10, successor := 40, predecessor := none, successorList := [40],
          fingers := [], storage := [], dead := false } [10]).successorList = [40, 10]
    ∧ ((stabilize
        { id := 10, successor := 40, predecessor := none, successorList := [40],
          fingers := [], storage := [], dead := false }
        (some none) true (some [10])).1.successorList = [40, 10]) := by
  decide

/-- One fix-fingers tick advances the counter to
`(counter + 1) % (fingers.length - 1)`. -/
theorem fixFingersTick_counter (n : NodeState) (c : Nat) (rpc : Id → Id → Option Id) :
    (fixFingersTick n c rpc).2 = (c + 1) % (n.fingers.length - 1) := rfl

/-- One fix-fingers tick preserves the number of fingers. -/
theorem fixFingersTick_length (n : NodeState) (c : Nat) (rpc : Id → Id → Option Id) :
    ((fixFingersTick n c rpc).1).fingers.length = n.fingers.length := by
  unfold fixFingersTick
  cases h : n.fingers[c]? <;> simp [h]

/-- A fix-fingers tick at a counter other than the last index leaves the
last finger untouched. -/
theorem fixFingersTick_last (n : NodeState) (c : Nat) (rpc : Id → Id → Option Id)
    (h : c ≠ n.fingers.length - 1) :
    ((fixFingersTick n c rpc).1).fingers[n.fingers.length - 1]?
      = n.fingers[n.fingers.length - 1]? := by
  unfold fixFingersTick
  cases hg : n.fingers[c]? with
  | none => simp [hg]
  | some f => simp [hg, List.getElem?_set_ne h]

/-- Invariant of iterated fix-fingers ticks: starting below
`fingers.length - 1`, the counter after `k` ticks is
`(c + k) % (fingers.length - 1)`, the finger count is preserved, and the
finger at the last index is never rewritten. -/
theorem fixFingersRun_spec (rpc : Id → Id → Option Id) (k : Nat) :
    ∀ (n : NodeState) (c : Nat), 2 ≤ n.fingers.length → c < n.fingers.length - 1 →
      (fixFingersRun rpc k (n, c)).2 = (c + k) % (n.fingers.length - 1)
      ∧ ((fixFingersRun rpc k (n, c)).1).fingers.length = n.fingers.length
      ∧ ((fixFingersRun rpc k (n, c)).1).fingers[n.fingers.length - 1]?
          = n.fingers[n.fingers.length - 1]? := by
  induction k with
  | zero =>
    intro n c hM hc
    exact ⟨by simp [fixFingersRun, Nat.mod_eq_of_lt hc], rfl, rfl⟩
  | succ k ih =>
    intro n c hM hc
    have hL := fixFingersTick_length n c rpc
    have hcval : (fixFingersTick n c rpc).2 = (c + 1) % (n.fingers.length - 1) :=
      fixFingersTick_counter n c rpc
    have hrun : fixFingersRun rpc (k + 1) (n, c)
        = fixFingersRun rpc k ((fixFingersTick n c rpc).1, (fixFingersTick n c rpc).2) :=
      rfl
    have hM' : 2 ≤ ((fixFingersTick n c rpc).1).fingers.length := by rw [hL]; exact hM
    have hc' : (fixFingersTick n c rpc).2 < ((fixFingersTick n c rpc).1).fingers.length - 1 := by
      rw [hL, hcval]
      exact Nat.mod_lt _ (by omega)
    obtain ⟨h1, h2, h3⟩ := ih (fixFingersTick n c rpc).1 (fixFingersTick n c rpc).2 hM' hc'
    refine ⟨?_, ?_, ?_⟩
    · rw [hrun, h1, hL, hcval]
      calc ((c + 1) % (n.fingers.length - 1) + k) % (n.fingers.length - 1)
          = ((c + 1) + k) % (n.fingers.length - 1) :=
            (Nat.mod_modEq (c + 1) (n.fingers.length - 1)).add_right k
        _ = (c + (k + 1)) % (n.fingers.length - 1) := by
            rw [show c + 1 + k = c + (k + 1) by omega]
    · rw [hrun, h2]; exact hL
    · have htick : ((fixFingersTick n c rpc).1).fingers[n.fingers.length - 1]?
          = n.fingers[n.fingers.length - 1]? :=
        fixFingersTick_last n c rpc (by omega)
      rw [hrun]
      rw [hL] at h3
      rw [h3]
      exact htick

/-- Claim C5: the fix-fingers round-robin counter starts at 0 and advances
as `c = (c + 1) mod (M - 1)` where `M = fingers.length`; after `k` ticks it
equals `k mod (M - 1)`, which always lies in `[0, M - 1)`, and the finger
at index `M - 1` is never refreshed — it keeps its initial value. -/
theorem fixFingers_counter_bound (n : NodeState) (rpc : Id → Id → Option Id) (k : Nat)
    (h : 2 ≤ n.fingers.length) :
    (fixFingersRun rpc k (n, 0)).2 = k % (n.fingers.length - 1)
    ∧ k % (n.fingers.length - 1) < n.fingers.length - 1
    ∧ (fixFingersRun rpc k (n, 0)).1.fingers[n.fingers.length - 1]?
        = n.fingers[n.fingers.length - 1]? := by
  have h0 : 0 < n.fingers.length - 1 := by omega
  obtain ⟨h1, _, h3⟩ := fixFingersRun_spec rpc k n 0 h h0
  exact ⟨by simpa using h1, Nat.mod_lt _ h0, h3⟩

/-- Witness for C5: a freshly constructed node with 8 fingers; after 10
ticks the counter is `10 % 7 = 3` and the last finger still holds its
initial value. -/
theorem fixFingers_counter_bound_witness :
    (fixFingersRun (fun _ _ => none) 10 (mkNode 3 3, 0)).2
      = 10 % ((mkNode 3 3).fingers.length - 1)
    ∧ (fixFingersRun (fun _ _ => none) 10 (mkNode 3 3, 0)).1.fingers[(mkNode 3 3).fingers.length - 1]?
        = (mkNode 3 3).fingers[(mkNode 3 3).fingers.length - 1]? :=
  ⟨(fixFingers_counter_bound (mkNode 3 3) (fun _ _ => none) 10 (by decide)).1,
   (fixFingers_counter_bound (mkNode 3 3) (fun _ _ => none) 10 (by decide)).2.2⟩

end Mesh
